import Mathlib

set_option maxRecDepth 100000

/-!
Shallow embedding of the semantic-retrieval subsystem of the
notebook-lm-clone repository: the `EmbeddingGenerator` component
(src/embeddings/embedding_generator.py) and the `QdrantVectorDB` store
(src/vector_database/qdrant_vector_db.py).

Conventions of the embedding:
* Python byte strings are `List Nat` with every element `< 256`.
* Python ints are `Int`/`Nat` with explicit `% 2^w` where the source relies
  on fixed-width arithmetic (MD5 works on 32-bit words).
* Python floats (embedding coordinates, similarity scores) are modelled as
  rationals `ℚ`: the claims under study are about order and interval
  membership, which the float operations of the source preserve.
* The external Qdrant client is modelled as explicit state: a point map
  passed in and out, with engine calls that may fail passed as parameters.
* `json.loads` is an external library call; it is a parameter
  `jloads : String → Option JVal` of the operations that use it, where
  `JVal` is the type of JSON values it can return.
-/

/-! ## Byte-level utilities -/

/-- Little-endian byte decomposition: `natToBytesLE n x` is the `n` low bytes
of `x`, least significant first (Python `int.to_bytes(n, 'little')`). -/
def natToBytesLE : Nat → Nat → List Nat
  | 0, _ => []
  | n + 1, x => (x % 256) :: natToBytesLE n (x / 256)

/-- Big-endian byte composition (Python `int.from_bytes(bs, 'big', signed=False)`). -/
def bytesToNatBE (bs : List Nat) : Nat :=
  bs.foldl (fun acc b => acc * 256 + b) 0

/-- Little-endian byte composition: first byte is least significant. -/
def bytesToNatLE (bs : List Nat) : Nat :=
  bs.foldr (fun b acc => acc * 256 + b) 0

/-- Fuel-driven worker for `chunkList`. -/
def chunkListAux (bs : Nat) : Nat → List α → List (List α)
  | _, [] => []
  | 0, _ => []
  | fuel + 1, l => l.take bs :: chunkListAux bs fuel (l.drop bs)

/-- Split a list into consecutive chunks of at most `bs` elements, in order
(the iteration pattern `for j in range(0, len(l), bs): l[j:j+bs]` of the
source, meaningful for `bs > 0`; Python's `range` rejects step 0). -/
def chunkList (bs : Nat) (l : List α) : List (List α) :=
  chunkListAux bs l.length l

/-! ## UTF-8 encoding

Python's `str.encode('utf-8', errors='replace')`.  Lean strings contain
only Unicode scalar values, so the `replace` branch (which exists for lone
surrogates) can never trigger; the encoding below is the standard one. -/

/-- UTF-8 encoding of one Unicode scalar value (as its codepoint). -/
def utf8EncodeCodepoint (c : Nat) : List Nat :=
  if c < 0x80 then [c]
  else if c < 0x800 then
    [0xc0 ||| (c >>> 6), 0x80 ||| (c &&& 0x3f)]
  else if c < 0x10000 then
    [0xe0 ||| (c >>> 12), 0x80 ||| ((c >>> 6) &&& 0x3f), 0x80 ||| (c &&& 0x3f)]
  else
    [0xf0 ||| (c >>> 18), 0x80 ||| ((c >>> 12) &&& 0x3f),
     0x80 ||| ((c >>> 6) &&& 0x3f), 0x80 ||| (c &&& 0x3f)]

/-- UTF-8 encoding of a whole string, as a byte list. -/
def utf8Encode (s : String) : List Nat :=
  (s.data.map (fun c => utf8EncodeCodepoint c.toNat)).flatten

/-! ## MD5 (`hashlib.md5`)

The store derives integer point ids from string chunk ids via MD5
(qdrant_vector_db.py lines 82-94), so the hash itself is part of the
embedding.  This is the RFC 1321 algorithm on 32-bit words, words carried
as `Nat` reduced `% 2^32`. -/

/-- The 64 MD5 round constants `K[i] = floor(2^32 * |sin(i+1)|)`. -/
def md5K : List Nat :=
  [0xd76aa478, 0xe8c7b756, 0x242070db, 0xc1bdceee,
   0xf57c0faf, 0x4787c62a, 0xa8304613, 0xfd469501,
   0x698098d8, 0x8b44f7af, 0xffff5bb1, 0x895cd7be,
   0x6b901122, 0xfd987193, 0xa679438e, 0x49b40821,
   0xf61e2562, 0xc040b340, 0x265e5a51, 0xe9b6c7aa,
   0xd62f105d, 0x02441453, 0xd8a1e681, 0xe7d3fbc8,
   0x21e1cde6, 0xc33707d6, 0xf4d50d87, 0x455a14ed,
   0xa9e3e905, 0xfcefa3f8, 0x676f02d9, 0x8d2a4c8a,
   0xfffa3942, 0x8771f681, 0x6d9d6122, 0xfde5380c,
   0xa4beea44, 0x4bdecfa9, 0xf6bb4b60, 0xbebfbc70,
   0x289b7ec6, 0xeaa127fa, 0xd4ef3085, 0x04881d05,
   0xd9d4d039, 0xe6db99e5, 0x1fa27cf8, 0xc4ac5665,
   0xf4292244, 0x432aff97, 0xab9423a7, 0xfc93a039,
   0x655b59c3, 0x8f0ccc92, 0xffeff47d, 0x85845dd1,
   0x6fa87e4f, 0xfe2ce6e0, 0xa3014314, 0x4e0811a1,
   0xf7537e82, 0xbd3af235, 0x2ad7d2bb, 0xeb86d391]

/-- The 64 MD5 per-round left-rotation amounts. -/
def md5S : List Nat :=
  [7, 12, 17, 22, 7, 12, 17, 22, 7, 12, 17, 22, 7, 12, 17, 22,
   5,  9, 14, 20, 5,  9, 14, 20, 5,  9, 14, 20, 5,  9, 14, 20,
   4, 11, 16, 23, 4, 11, 16, 23, 4, 11, 16, 23, 4, 11, 16, 23,
   6, 10, 15, 21, 6, 10, 15, 21, 6, 10, 15, 21, 6, 10, 15, 21]

/-- 32-bit left rotation. -/
def rotl32 (x s : Nat) : Nat :=
  ((x <<< s) ||| (x >>> (32 - s))) % 2 ^ 32

/-- The four 32-bit words of MD5 chaining state. -/
structure MD5State where
  a : Nat
  b : Nat
  c : Nat
  d : Nat
deriving DecidableEq, Repr

/-- MD5 initial chaining state. -/
def md5Init : MD5State :=
  ⟨0x67452301, 0xefcdab89, 0x98badcfe, 0x10325476⟩

/-- One of the 64 MD5 operations: round function value and message index,
then the rotate-and-add state update. -/
def md5Step (ws : List Nat) (st : MD5State) (i : Nat) : MD5State :=
  let fg : Nat × Nat :=
    if i < 16 then
      ((st.b &&& st.c) ||| ((0xffffffff ^^^ st.b) &&& st.d), i)
    else if i < 32 then
      ((st.d &&& st.b) ||| ((0xffffffff ^^^ st.d) &&& st.c), (5 * i + 1) % 16)
    else if i < 48 then
      (st.b ^^^ st.c ^^^ st.d, (3 * i + 5) % 16)
    else
      (st.c ^^^ (st.b ||| (0xffffffff ^^^ st.d)), (7 * i) % 16)
  let f := (fg.1 + st.a + md5K.getD i 0 + ws.getD fg.2 0) % 2 ^ 32
  ⟨st.d, (st.b + rotl32 f (md5S.getD i 0)) % 2 ^ 32, st.b, st.c⟩

/-- Process one 64-byte block: 16 little-endian words, 64 operations, then
add the result into the chaining state modulo `2^32`. -/
def md5Block (st : MD5State) (block : List Nat) : MD5State :=
  let ws := (chunkList 4 block).map bytesToNatLE
  let r := (List.range 64).foldl (md5Step ws) st
  ⟨(st.a + r.a) % 2 ^ 32, (st.b + r.b) % 2 ^ 32,
   (st.c + r.c) % 2 ^ 32, (st.d + r.d) % 2 ^ 32⟩

/-- MD5 padding: one `0x80` byte, zeros to 56 mod 64, then the original
bit length as 8 little-endian bytes. -/
def md5Pad (msg : List Nat) : List Nat :=
  let len := msg.length
  let zeros := (120 - (len + 1) % 64) % 64
  msg ++ 0x80 :: List.replicate zeros 0 ++ natToBytesLE 8 ((len * 8) % 2 ^ 64)

/-- The MD5 digest of a byte string: 16 bytes. -/
def md5 (msg : List Nat) : List Nat :=
  let st := (chunkList 64 (md5Pad msg)).foldl md5Block md5Init
  natToBytesLE 4 st.a ++ natToBytesLE 4 st.b ++ natToBytesLE 4 st.c ++ natToBytesLE 4 st.d

/-- `QdrantVectorDB._string_id_to_int` (qdrant_vector_db.py lines 82-94):
MD5 the UTF-8 encoding of the string id, take the first 8 digest bytes as a
big-endian unsigned integer, and reduce modulo `2^63 - 1`.  (The Python
method has a leading underscore; the name here drops it.) -/
def string_id_to_int (s : String) : Nat :=
  bytesToNatBE ((md5 (utf8Encode s)).take 8) % (2 ^ 63 - 1)

/-- Sanity anchor: the RFC 1321 test vector for the empty message. -/
theorem md5_empty_vector :
    md5 [] = [0xd4, 0x1d, 0x8c, 0xd9, 0x8f, 0x00, 0xb2, 0x04,
              0xe9, 0x80, 0x09, 0x98, 0xec, 0xf8, 0x42, 0x7e] := by
  decide

/-- Sanity anchor: the RFC 1321 test vector for "abc". -/
theorem md5_abc_vector :
    md5 (utf8Encode "abc") = [0x90, 0x01, 0x50, 0x98, 0x3c, 0xd2, 0x4f, 0xb0,
                              0xd6, 0x96, 0x3f, 0x7d, 0x28, 0xe1, 0x7f, 0x72] := by
  decide

/-! ## Data model

`DocumentChunk` is produced upstream (document processing, outside the two
components under study) and consumed read-only; its fields are the ones
`EmbeddedChunk.to_vector_db_format` reads (embedding_generator.py lines
38-51).  A chunk's `metadata` field may be absent, a structured mapping, or
a raw string that the store will attempt to parse as JSON. -/

/-- JSON values, the possible results of the external `json.loads`. -/
inductive JVal where
  | jnull : JVal
  | jbool : Bool → JVal
  | jnum : Int → JVal
  | jstr : String → JVal
  | jarr : List JVal → JVal
  | jobj : List (String × JVal) → JVal

/-- The shape of a chunk's `metadata` attribute in the source: Python
`None`, a structured dict, or a raw string. -/
inductive MetaField where
  | mnone : MetaField
  | mdict : List (String × JVal) → MetaField
  | mstr : String → MetaField

/-- A document chunk with content and provenance (spec section 3; fields as
read by `to_vector_db_format`). -/
structure DocumentChunk where
  chunk_id : String
  content : String
  source_file : String
  source_type : String
  page_number : Option Int
  chunk_index : Int
  start_char : Option Int
  end_char : Option Int
  metadata : MetaField

/-- `EmbeddedChunk` (embedding_generator.py lines 31-51): a chunk, its
vector (float32 coordinates modelled as rationals), and the producing
model's name. -/
structure EmbeddedChunk where
  chunk : DocumentChunk
  embedding : List ℚ
  embedding_model : String

/-! ## EmbeddingGenerator

After the initialization ladder has finished, the generator holds one model
handle and the dimension probed from it.  The active backend's encode call
(fastembed `embed` or a sentence-transformers/transformers `encode`) is an
external library routine: it is carried as a function field, one vector per
input text. -/

/-- An initialized `EmbeddingGenerator`: the frozen backend handle and the
dimension fixed at initialization (embedding_generator.py lines 54-64). -/
structure EmbeddingGenerator where
  model_name : String
  embedding_dim : Nat
  encode : List String → List (List ℚ)

/-- The backend contract the initialization ladder establishes (spec
section 4.1): the active model returns one vector per input text, each of
the probed width. -/
def EncodeContract (g : EmbeddingGenerator) : Prop :=
  ∀ ts : List String,
    (g.encode ts).length = ts.length ∧ ∀ v ∈ g.encode ts, v.length = g.embedding_dim

/-- `EmbeddingGenerator.generate_embeddings` (embedding_generator.py lines
211-243): empty input short-circuits to `[]`; otherwise embed all contents
in one backend call and zip the chunks with the returned vectors. -/
def generate_embeddings (g : EmbeddingGenerator) (chunks : List DocumentChunk) :
    List EmbeddedChunk :=
  if chunks.isEmpty then []
  else
    let texts := chunks.map (fun c => c.content)
    let embeddings := g.encode texts
    (chunks.zip embeddings).map (fun ce => ⟨ce.1, ce.2, g.model_name⟩)

/-- `EmbeddingGenerator.get_embedding_dimension` (embedding_generator.py
lines 261-262). -/
def get_embedding_dimension (g : EmbeddingGenerator) : Nat :=
  g.embedding_dim

/-- `EmbeddingGenerator.batch_generate_embeddings` (embedding_generator.py
lines 264-282): for each incoming batch, walk it in strides of `batch_size`
(`for j in range(0, len(chunk_batch), batch_size)`), embed every sub-batch,
and concatenate the results back into one output batch per input batch.
`range` requires a nonzero step, so the model is meaningful for
`batch_size > 0`. -/
def batch_generate_embeddings (g : EmbeddingGenerator)
    (chunks_batches : List (List DocumentChunk)) (batch_size : Nat) :
    List (List EmbeddedChunk) :=
  chunks_batches.map (fun chunk_batch =>
    ((chunkList batch_size chunk_batch).map (fun sub => generate_embeddings g sub)).flatten)

/-! ## QdrantVectorDB

The store is modelled against a single collection.  The external Qdrant
client's point storage is an explicit association list from integer point
id to stored point; `client.upsert` and `client.retrieve` act on it, and
engine calls that can fail (retrieve, query_points) are passed in as
behaviours so that their failure modes can be quantified over. -/

/-- The fixed-shape point payload built by `insert_embeddings`
(qdrant_vector_db.py lines 124-148).  `metadata = none` models the absence
of the `'metadata'` key (the source only adds the key when the chunk's
metadata is truthy); every other field is always present.  `original_id`
holds the chunk's string id so the integer mapping is invertible on read. -/
structure Payload where
  content : String
  source_file : String
  source_type : String
  page_number : Int
  chunk_index : Int
  start_char : Int
  end_char : Int
  embedding_model : String
  metadata : Option JVal
  original_id : String

/-- A stored point: integer id, vector, payload (Qdrant `PointStruct`). -/
structure Point where
  id : Nat
  vector : List ℚ
  payload : Payload

/-- The client's point storage for the one collection in play. -/
abbrev PointMap := List (Nat × Point)

/-- Store one point under its id, replacing any existing point with the
same id (Qdrant upsert semantics: last write wins). -/
def storePoint (m : PointMap) (p : Point) : PointMap :=
  m.filter (fun q => q.1 != p.id) ++ [(p.id, p)]

/-- `client.upsert` on a batch of points: points are applied in order, so a
later point with the same derived id overwrites an earlier one. -/
def qdrantUpsert (m : PointMap) (ps : List Point) : PointMap :=
  ps.foldl storePoint m

/-- `client.retrieve(ids=...)`: the stored points among the requested ids. -/
def retrievePoints (m : PointMap) (ids : List Nat) : List Point :=
  ids.filterMap (fun i => (m.find? (fun q => q.1 == i)).map (fun q => q.2))

/-- The store object's own state: the readiness flag consulted by
`get_chunk_by_id` (collection name and dimension play no role in the
operations under study beyond routing to the one modelled collection). -/
structure QdrantVectorDB where
  collection_name : String
  embedding_dim : Nat
  collection_exists : Bool

/-- The −1 sentinel encoding of an optional numeric field on insert:
`v if v is not None else -1` (qdrant_vector_db.py lines 128-131). -/
def sentinelEncode (x : Option Int) : Int :=
  x.getD (-1)

/-- The sentinel reversal on read: `v if v != -1 else None`
(qdrant_vector_db.py lines 216-219 and 287). -/
def sentinelDecode (x : Int) : Option Int :=
  if x = -1 then none else some x

/-- The `'metadata'` payload entry built on insert (qdrant_vector_db.py
lines 135-143): nothing when the chunk's metadata is falsy (Python `None`,
empty dict, empty string); a dict is stored as is; a non-empty string is
parsed with `json.loads`, any parse failure caught and replaced by `{}`. -/
def metaPayload (jloads : String → Option JVal) : MetaField → Option JVal
  | .mnone => none
  | .mdict d => if d.isEmpty then none else some (.jobj d)
  | .mstr s => if s.isEmpty then none else some ((jloads s).getD (.jobj []))

/-- The payload `insert_embeddings` builds for one embedded chunk out of
`to_vector_db_format` data (qdrant_vector_db.py lines 121-148). -/
def buildPayload (jloads : String → Option JVal) (e : EmbeddedChunk) : Payload :=
  { content := e.chunk.content
    source_file := e.chunk.source_file
    source_type := e.chunk.source_type
    page_number := sentinelEncode e.chunk.page_number
    chunk_index := e.chunk.chunk_index
    start_char := sentinelEncode e.chunk.start_char
    end_char := sentinelEncode e.chunk.end_char
    embedding_model := e.embedding_model
    metadata := metaPayload jloads e.chunk.metadata
    original_id := e.chunk.chunk_id }

/-- The `PointStruct` built for one embedded chunk (qdrant_vector_db.py
lines 145-155): id is the derived integer key. -/
def mkPoint (jloads : String → Option JVal) (e : EmbeddedChunk) : Point :=
  ⟨string_id_to_int e.chunk.chunk_id, e.embedding, buildPayload jloads e⟩

/-- `QdrantVectorDB.insert_embeddings` (qdrant_vector_db.py lines 115-166):
empty input returns `[]` before any engine interaction; otherwise build all
points, hand them to the engine's upsert in one batch call, and return the
integer point ids in input order.  The engine's upsert is a parameter so
that "no engine call happens" is expressible as independence from it. -/
def insert_embeddings (jloads : String → Option JVal)
    (upsert : PointMap → List Point → PointMap)
    (m : PointMap) (embedded_chunks : List EmbeddedChunk) :
    List Nat × PointMap :=
  if embedded_chunks.isEmpty then ([], m)
  else
    let points := embedded_chunks.map (mkPoint jloads)
    (points.map (fun p => p.id), upsert m points)

/-- The chunk-level view `get_chunk_by_id` reconstructs
(qdrant_vector_db.py lines 281-289); note it exposes `page_number` but not
`start_char`/`end_char`. -/
structure ChunkRecord where
  id : String
  content : String
  metadata : JVal
  source_file : String
  source_type : String
  page_number : Option Int
  chunk_index : Int

/-- The metadata reconstruction in `get_chunk_by_id` (qdrant_vector_db.py
lines 274-279): default `{}` when the key is absent, and a string value is
re-parsed with `json.loads`, parse failure again replaced by `{}`. -/
def getMeta (jloads : String → Option JVal) (p : Payload) : JVal :=
  match p.metadata.getD (.jobj []) with
  | .jstr s => (jloads s).getD (.jobj [])
  | v => v

/-- `QdrantVectorDB.get_chunk_by_id` (qdrant_vector_db.py lines 246-297).
The engine's retrieve behaviour is a parameter `retrieve`; `.error` models
the engine call raising, which the source's `except` catches and converts
to `None`.  Absent collection, engine failure, and an empty result list
all produce the absent value. -/
def get_chunk_by_id (jloads : String → Option JVal) (db : QdrantVectorDB)
    (retrieve : Nat → Except Unit (List Point)) (chunk_id : String) :
    Option ChunkRecord :=
  if !db.collection_exists then none
  else
    let point_id := string_id_to_int chunk_id
    match retrieve point_id with
    | .error _ => none
    | .ok results =>
      match results with
      | [] => none
      | result :: _ =>
        let payload := result.payload
        some { id := payload.original_id
               content := payload.content
               metadata := getMeta jloads payload
               source_file := payload.source_file
               source_type := payload.source_type
               page_number := sentinelDecode payload.page_number
               chunk_index := payload.chunk_index }

/-- The non-failing engine retrieve over a given point storage. -/
def normalRetrieve (m : PointMap) : Nat → Except Unit (List Point) :=
  fun i => .ok (retrievePoints m [i])

/-- A point as returned by the engine's `query_points`: with a similarity
score (cosine: higher is closer). -/
structure ScoredPoint where
  id : Nat
  score : ℚ
  payload : Payload

/-- The citation object assembled per search result (qdrant_vector_db.py
lines 213-220). -/
structure Citation where
  source_file : String
  source_type : String
  page_number : Option Int
  chunk_index : Int
  start_char : Option Int
  end_char : Option Int

/-- One formatted search result (qdrant_vector_db.py lines 209-223). -/
structure SearchResult where
  id : String
  score : ℚ
  content : String
  citation : Citation
  metadata : JVal
  embedding_model : String

/-- The per-point formatting of `search` (qdrant_vector_db.py lines
203-224): original string id from payload, `score = 1 - similarity`,
citation with the −1 sentinels reversed, metadata defaulting to `{}`. -/
def formatSearchResult (p : ScoredPoint) : SearchResult :=
  { id := p.payload.original_id
    score := 1 - p.score
    content := p.payload.content
    citation := { source_file := p.payload.source_file
                  source_type := p.payload.source_type
                  page_number := sentinelDecode p.payload.page_number
                  chunk_index := p.payload.chunk_index
                  start_char := sentinelDecode p.payload.start_char
                  end_char := sentinelDecode p.payload.end_char }
    metadata := p.payload.metadata.getD (.jobj [])
    embedding_model := p.payload.embedding_model }

/-- `QdrantVectorDB.search` (qdrant_vector_db.py lines 172-227).  The
engine (`client.query_points`) is a parameter taking the query vector, the
built filter, and the limit.  A truthy `filter_expr` only triggers a
logged warning in the source: `query_filter` stays `None` on every path,
so the engine is always called with no filter. -/
def search (engine : List ℚ → Option Unit → Nat → List ScoredPoint)
    (query_vector : List ℚ) (limit : Nat) (filter_expr : Option String) :
    List SearchResult :=
  let query_filter : Option Unit := none
  let results := engine query_vector query_filter limit
  results.map formatSearchResult

/-! ## Helper lemmas -/

/-- Re-concatenating the stride-`bs` chunks of a list gives the list back
(for a positive stride and enough fuel). -/
theorem chunkListAux_flatten {α : Type _} (bs : Nat) (hbs : 0 < bs) :
    ∀ (fuel : Nat) (l : List α), l.length ≤ fuel →
      (chunkListAux bs fuel l).flatten = l := by
  intro fuel
  induction fuel with
  | zero =>
    intro l hl
    have : l = [] := List.eq_nil_of_length_eq_zero (Nat.le_zero.mp hl)
    subst this
    rfl
  | succ n ih =>
    intro l hl
    cases l with
    | nil => rfl
    | cons x xs =>
      show ((x :: xs).take bs :: chunkListAux bs n ((x :: xs).drop bs)).flatten = x :: xs
      rw [List.flatten_cons, ih]
      · exact List.take_append_drop bs (x :: xs)
      · have hl' : xs.length + 1 ≤ n + 1 := by simpa using hl
        simp only [List.length_drop, List.length_cons]
        omega

/-- Every stride-`bs` chunk has at most `bs` elements. -/
theorem chunkListAux_mem_length {α : Type _} (bs : Nat) :
    ∀ (fuel : Nat) (l : List α), ∀ sb ∈ chunkListAux bs fuel l, sb.length ≤ bs := by
  intro fuel
  induction fuel with
  | zero =>
    intro l sb hsb
    cases l <;> simp [chunkListAux] at hsb
  | succ n ih =>
    intro l sb hsb
    cases l with
    | nil => simp [chunkListAux] at hsb
    | cons x xs =>
      have : sb ∈ (x :: xs).take bs :: chunkListAux bs n ((x :: xs).drop bs) := hsb
      rcases List.mem_cons.mp this with h | h
      · subst h
        simpa using Nat.min_le_left bs (x :: xs).length
      · exact ih _ sb h

/-- Under the backend contract, embedding a chunk list reproduces exactly
the chunks, in order. -/
theorem generate_embeddings_map_chunk (g : EmbeddingGenerator)
    (hg : EncodeContract g) (chunks : List DocumentChunk) :
    (generate_embeddings g chunks).map (fun ec => ec.chunk) = chunks := by
  cases chunks with
  | nil => rfl
  | cons c cs =>
    unfold generate_embeddings
    rw [if_neg (by simp)]
    rw [List.map_map]
    have hlen := (hg ((c :: cs).map (fun x => x.content))).1
    exact List.map_fst_zip (c :: cs) _ (by rw [hlen]; simp)

/-- Under the backend contract, every produced embedding has the probed
dimension. -/
theorem generate_embeddings_mem_dim (g : EmbeddingGenerator)
    (hg : EncodeContract g) (chunks : List DocumentChunk) :
    ∀ ec ∈ generate_embeddings g chunks, ec.embedding.length = g.embedding_dim := by
  intro ec hec
  cases chunks with
  | nil => simp [generate_embeddings] at hec
  | cons c cs =>
    unfold generate_embeddings at hec
    rw [if_neg (by simp)] at hec
    simp only [List.mem_map] at hec
    obtain ⟨ce, hce, rfl⟩ := hec
    exact (hg _).2 ce.2 (List.of_mem_zip hce).2

/-- After an upsert of `p`, looking its id up finds exactly `p`. -/
theorem find?_storePoint (m : PointMap) (p : Point) :
    (storePoint m p).find? (fun q => q.1 == p.id) = some (p.id, p) := by
  unfold storePoint
  induction m with
  | nil => simp
  | cons q rest ih =>
    rw [List.filter_cons]
    by_cases hq : q.1 = p.id
    · simp only [hq, bne_self_eq_false, Bool.false_eq_true, if_false]
      exact ih
    · have hbne : (q.1 != p.id) = true := bne_iff_ne.mpr hq
      rw [if_pos hbne, List.cons_append, List.find?_cons_of_neg _ (by simpa using hq)]
      exact ih

/-- The sentinel translation is the identity round trip on every optional
value except a genuine `-1`, which the reversal cannot distinguish from
absence. -/
theorem sentinelDecode_encode (x : Option Int) (hx : x ≠ some (-1)) :
    sentinelDecode (sentinelEncode x) = x := by
  cases x with
  | none => rfl
  | some v =>
    have hv : v ≠ -1 := fun h => hx (by rw [h])
    simp [sentinelEncode, sentinelDecode, hv]

/-- Master round-trip lemma: inserting one embedded chunk into any prior
point storage and retrieving by its string id yields the record rebuilt
from the payload the insert wrote.  No collision hypothesis is needed:
upsert overwrites any prior point under the same derived key. -/
theorem get_after_insert (jloads : String → Option JVal) (db : QdrantVectorDB)
    (m : PointMap) (e : EmbeddedChunk) (hdb : db.collection_exists = true) :
    get_chunk_by_id jloads db
      (normalRetrieve (insert_embeddings jloads qdrantUpsert m [e]).2)
      e.chunk.chunk_id
    = some { id := e.chunk.chunk_id
             content := e.chunk.content
             metadata := getMeta jloads (buildPayload jloads e)
             source_file := e.chunk.source_file
             source_type := e.chunk.source_type
             page_number := sentinelDecode (sentinelEncode e.chunk.page_number)
             chunk_index := e.chunk.chunk_index } := by
  have hins : (insert_embeddings jloads qdrantUpsert m [e]).2
      = storePoint m (mkPoint jloads e) := by
    simp [insert_embeddings, qdrantUpsert]
  rw [hins]
  have hr : normalRetrieve (storePoint m (mkPoint jloads e))
      (string_id_to_int e.chunk.chunk_id) = .ok [mkPoint jloads e] := by
    unfold normalRetrieve retrievePoints
    have hfind := find?_storePoint m (mkPoint jloads e)
    rw [show (mkPoint jloads e).id = string_id_to_int e.chunk.chunk_id from rfl] at hfind
    simp [hfind]
  unfold get_chunk_by_id
  rw [hdb]
  simp only [Bool.not_true, Bool.false_eq_true, if_false]
  rw [hr]
  rfl

/-! ## Claim theorems -/

/-- C2: `_string_id_to_int` is deterministic — it is a pure function of its
input, so equal inputs give equal outputs, across calls and (since MD5 is a
fixed algorithm, unseeded, unlike Python's randomized `hash`) across
process restarts — and every value lies in `[0, 2^63 - 2]`: the digest
prefix is reduced modulo `2^63 - 1`. -/
theorem string_id_to_int_deterministic_and_in_range (s : String) :
    string_id_to_int s ≤ 2 ^ 63 - 2 ∧
    ∀ t : String, t = s → string_id_to_int t = string_id_to_int s := by
  constructor
  · have h : string_id_to_int s < 2 ^ 63 - 1 := Nat.mod_lt _ (by norm_num)
    omega
  · intro t ht
    rw [ht]

/-- C2 witness: the bound and the determinism congruence evaluated at the
concrete id "c1". -/
theorem string_id_to_int_deterministic_and_in_range_witness :
    ("c1" : String) = "c1" ∧
    string_id_to_int "c1" ≤ 2 ^ 63 - 2 ∧
    string_id_to_int "c1" = string_id_to_int "c1" :=
  ⟨rfl, (string_id_to_int_deterministic_and_in_range "c1").1,
   (string_id_to_int_deterministic_and_in_range "c1").2 "c1" rfl⟩

/-- C8: inserting the empty list returns the empty list with the point
storage untouched, under every engine upsert behaviour `upsert` — the
result does not depend on the engine at all, capturing that the source
returns before its `client.upsert` call. -/
theorem insert_embeddings_empty_noop (jloads : String → Option JVal)
    (upsert : PointMap → List Point → PointMap) (m : PointMap) :
    insert_embeddings jloads upsert m [] = ([], m) := rfl

/-- C6: the filter argument of `search` has no influence on the output —
for every engine behaviour, query vector, and limit, a call with any
`filter_expr` returns exactly the results of the unfiltered call; the
source never builds an engine filter from it (it only logs a warning). -/
theorem search_filter_expr_noop
    (engine : List ℚ → Option Unit → Nat → List ScoredPoint)
    (query_vector : List ℚ) (limit : Nat) (filter_expr : Option String) :
    search engine query_vector limit filter_expr
      = search engine query_vector limit none := rfl

/-- C10: `insert_embeddings` returns the derived integer keys
`_string_id_to_int(chunk_id)` in input order, one per input chunk — the
hashed keys, not the original string ids.  This holds for every input
list, in particular every non-empty one. -/
theorem insert_embeddings_returns_hashed_ids (jloads : String → Option JVal)
    (upsert : PointMap → List Point → PointMap) (m : PointMap)
    (embedded_chunks : List EmbeddedChunk) :
    (insert_embeddings jloads upsert m embedded_chunks).1
        = embedded_chunks.map (fun e => string_id_to_int e.chunk.chunk_id) ∧
    (insert_embeddings jloads upsert m embedded_chunks).1.length
        = embedded_chunks.length := by
  have h : (insert_embeddings jloads upsert m embedded_chunks).1
      = embedded_chunks.map (fun e => string_id_to_int e.chunk.chunk_id) := by
    cases embedded_chunks with
    | nil => rfl
    | cons e es =>
      unfold insert_embeddings
      rw [if_neg (by simp)]
      simp only [List.map_map]
      rfl
  exact ⟨h, by rw [h, List.length_map]⟩

/-- C3: under the contract the initialization ladder establishes for the
active backend (one vector per text, each of the probed width),
`generate_embeddings` yields exactly one `EmbeddedChunk` per input chunk in
input order, the empty input yields the empty output unconditionally, and
every output vector's length is `get_embedding_dimension()`. -/
theorem generate_embeddings_one_per_chunk (g : EmbeddingGenerator)
    (hg : EncodeContract g) :
    generate_embeddings g [] = [] ∧
    ∀ chunks : List DocumentChunk,
      (generate_embeddings g chunks).length = chunks.length ∧
      (generate_embeddings g chunks).map (fun ec => ec.chunk) = chunks ∧
      ∀ ec ∈ generate_embeddings g chunks,
        ec.embedding.length = get_embedding_dimension g := by
  refine ⟨rfl, fun chunks => ⟨?_, generate_embeddings_map_chunk g hg chunks,
    generate_embeddings_mem_dim g hg chunks⟩⟩
  have h := congrArg List.length (generate_embeddings_map_chunk g hg chunks)
  simpa using h

/-- A concrete backend for witnesses: dimension 2, every text embedded as
`[1, 0]`. -/
def witnessGen : EmbeddingGenerator :=
  ⟨"witness-model", 2, fun ts => ts.map (fun _ => [1, 0])⟩

/-- The witness backend satisfies the backend contract. -/
theorem witnessGen_contract : EncodeContract witnessGen := by
  intro ts
  refine ⟨by simp [witnessGen], ?_⟩
  intro v hv
  simp only [witnessGen, List.mem_map] at hv
  obtain ⟨a, _, rfl⟩ := hv
  rfl

/-- A concrete chunk with all optional fields present. -/
def chunkA : DocumentChunk :=
  ⟨"c1", "hello world", "a.pdf", "pdf", some 1, 0, some 0, some 11, .mnone⟩

/-- A concrete chunk with absent optional fields and dict metadata. -/
def chunkB : DocumentChunk :=
  ⟨"c2", "second chunk", "a.pdf", "pdf", none, 1, none, none,
   .mdict [("k", .jstr "v")]⟩

/-- C3 witness: the shape properties evaluated on a concrete generator and
a concrete two-chunk input. -/
theorem generate_embeddings_one_per_chunk_witness :
    EncodeContract witnessGen ∧
    generate_embeddings witnessGen [] = [] ∧
    (generate_embeddings witnessGen [chunkA, chunkB]).length = 2 ∧
    (generate_embeddings witnessGen [chunkA, chunkB]).map (fun ec => ec.chunk)
        = [chunkA, chunkB] ∧
    ∀ ec ∈ generate_embeddings witnessGen [chunkA, chunkB],
      ec.embedding.length = get_embedding_dimension witnessGen :=
  ⟨witnessGen_contract,
   (generate_embeddings_one_per_chunk witnessGen witnessGen_contract).1,
   ((generate_embeddings_one_per_chunk witnessGen witnessGen_contract).2
      [chunkA, chunkB]).1,
   ((generate_embeddings_one_per_chunk witnessGen witnessGen_contract).2
      [chunkA, chunkB]).2.1,
   ((generate_embeddings_one_per_chunk witnessGen witnessGen_contract).2
      [chunkA, chunkB]).2.2⟩

/-- C7: for a positive `batch_size` and a backend meeting the contract,
`batch_generate_embeddings` partitions each incoming batch into
consecutive sub-batches of at most `batch_size` chunks whose concatenation
is the original batch, delegates each sub-batch to `generate_embeddings`,
and produces one output batch per input batch preserving intra-batch chunk
order. -/
theorem batch_generate_embeddings_partitions (g : EmbeddingGenerator)
    (hg : EncodeContract g) (chunks_batches : List (List DocumentChunk))
    (batch_size : Nat) (hbs : 0 < batch_size) :
    (batch_generate_embeddings g chunks_batches batch_size).length
        = chunks_batches.length ∧
    (∀ b ∈ chunks_batches,
        (chunkList batch_size b).flatten = b ∧
        ∀ sb ∈ chunkList batch_size b, sb.length ≤ batch_size) ∧
    (batch_generate_embeddings g chunks_batches batch_size).map
        (fun eb => eb.map (fun ec => ec.chunk)) = chunks_batches := by
  have hbatch : ∀ b : List DocumentChunk,
      (((chunkList batch_size b).map (fun sub => generate_embeddings g sub)).flatten).map
          (fun ec => ec.chunk) = b := by
    intro b
    rw [List.map_flatten, List.map_map]
    have h1 : (chunkList batch_size b).map
        ((List.map (fun ec => ec.chunk)) ∘ (fun sub => generate_embeddings g sub))
        = (chunkList batch_size b).map (fun sub => sub) :=
      List.map_congr_left (fun sb _ => generate_embeddings_map_chunk g hg sb)
    rw [h1, List.map_id']
    exact chunkListAux_flatten batch_size hbs b.length b le_rfl
  have hmap : (batch_generate_embeddings g chunks_batches batch_size).map
      (fun eb => eb.map (fun ec => ec.chunk)) = chunks_batches := by
    unfold batch_generate_embeddings
    rw [List.map_map]
    have hfun : (chunks_batches.map
        ((fun eb : List EmbeddedChunk => eb.map (fun ec => ec.chunk)) ∘
          (fun chunk_batch =>
            ((chunkList batch_size chunk_batch).map
              (fun sub => generate_embeddings g sub)).flatten)))
        = chunks_batches.map (fun b => b) :=
      List.map_congr_left (fun b _ => hbatch b)
    rw [hfun, List.map_id']
  refine ⟨?_, ?_, hmap⟩
  · have h := congrArg List.length hmap
    simpa using h
  · intro b _
    exact ⟨chunkListAux_flatten batch_size hbs b.length b le_rfl,
           chunkListAux_mem_length batch_size b.length b⟩

/-- C7 witness: partitioning evaluated on one concrete batch of two chunks
with `batch_size = 1`. -/
theorem batch_generate_embeddings_partitions_witness :
    EncodeContract witnessGen ∧ 0 < 1 ∧
    (batch_generate_embeddings witnessGen [[chunkA, chunkB]] 1).length = 1 ∧
    (∀ b ∈ [[chunkA, chunkB]],
        (chunkList 1 b).flatten = b ∧ ∀ sb ∈ chunkList 1 b, sb.length ≤ 1) ∧
    (batch_generate_embeddings witnessGen [[chunkA, chunkB]] 1).map
        (fun eb => eb.map (fun ec => ec.chunk)) = [[chunkA, chunkB]] :=
  ⟨witnessGen_contract, Nat.one_pos,
   (batch_generate_embeddings_partitions witnessGen witnessGen_contract
      [[chunkA, chunkB]] 1 Nat.one_pos).1,
   (batch_generate_embeddings_partitions witnessGen witnessGen_contract
      [[chunkA, chunkB]] 1 Nat.one_pos).2.1,
   (batch_generate_embeddings_partitions witnessGen witnessGen_contract
      [[chunkA, chunkB]] 1 Nat.one_pos).2.2⟩

/-- C5: `get_chunk_by_id` never propagates a failure.  In this embedding
it is a total function into `Option`, so nothing can escape; the theorem
shows that each of the three conditions of the claim — collection absent,
engine call failing (the source's bare `except` turns any raised error
into `None`), and no matching point — forces the one absent result, so
the three outcomes are observably identical to the caller. -/
theorem get_chunk_by_id_absent_on_failure (jloads : String → Option JVal)
    (db : QdrantVectorDB) (retrieve : Nat → Except Unit (List Point))
    (chunk_id : String)
    (h : db.collection_exists = false ∨
         retrieve (string_id_to_int chunk_id) = .error () ∨
         retrieve (string_id_to_int chunk_id) = .ok []) :
    get_chunk_by_id jloads db retrieve chunk_id = none := by
  unfold get_chunk_by_id
  rcases h with h | h | h
  · simp [h]
  · cases hx : db.collection_exists
    · simp [hx]
    · simp [hx, h]
  · cases hx : db.collection_exists
    · simp [hx]
    · simp [hx, h]

/-- C5 witness: a ready collection whose engine has no point for the
requested id yields the absent value. -/
theorem get_chunk_by_id_absent_on_failure_witness :
    ((fun _ : Nat => (Except.ok [] : Except Unit (List Point)))
        (string_id_to_int "missing") = Except.ok []) ∧
    get_chunk_by_id (fun _ => none) ⟨"notebook_lm", 384, true⟩
        (fun _ => Except.ok []) "missing" = none :=
  ⟨rfl,
   get_chunk_by_id_absent_on_failure (fun _ => none) ⟨"notebook_lm", 384, true⟩
     (fun _ => Except.ok []) "missing" (Or.inr (Or.inr rfl))⟩

/-- C1: round trip.  Inserting an embedded chunk with string id `X` into
any prior point storage and then calling `get_chunk_by_id(X)` returns a
present record whose `id` equals `X` and whose content and provenance
fields equal the inserted chunk's values, with the −1 sentinel translated
back to absence.  The hypothesis on `page_number` excludes the one value
(`-1`) that the sentinel reversal maps to absence by design; no
hash-collision hypothesis is needed in this direction, because the upsert
overwrites any previously stored point under the same derived key. -/
theorem insert_then_get_roundtrip (jloads : String → Option JVal)
    (db : QdrantVectorDB) (m : PointMap) (e : EmbeddedChunk)
    (hdb : db.collection_exists = true)
    (hpn : e.chunk.page_number ≠ some (-1)) :
    ∃ r : ChunkRecord,
      get_chunk_by_id jloads db
          (normalRetrieve (insert_embeddings jloads qdrantUpsert m [e]).2)
          e.chunk.chunk_id = some r ∧
      r.id = e.chunk.chunk_id ∧
      r.content = e.chunk.content ∧
      r.source_file = e.chunk.source_file ∧
      r.source_type = e.chunk.source_type ∧
      r.page_number = e.chunk.page_number ∧
      r.chunk_index = e.chunk.chunk_index := by
  refine ⟨_, get_after_insert jloads db m e hdb, rfl, rfl, rfl, rfl, ?_, rfl⟩
  exact sentinelDecode_encode _ hpn

/-- The embedded form of `chunkA`, used by the round-trip witnesses. -/
def embA : EmbeddedChunk := ⟨chunkA, [1, 0], "witness-model"⟩

/-- A store object whose collection is ready. -/
def dbReady : QdrantVectorDB := ⟨"notebook_lm", 2, true⟩

/-- C1 witness: the round trip evaluated for a concrete chunk with id
"c1" inserted into an empty store. -/
theorem insert_then_get_roundtrip_witness :
    dbReady.collection_exists = true ∧
    embA.chunk.page_number ≠ some (-1) ∧
    ∃ r : ChunkRecord,
      get_chunk_by_id (fun _ => none) dbReady
          (normalRetrieve
            (insert_embeddings (fun _ => none) qdrantUpsert [] [embA]).2)
          embA.chunk.chunk_id = some r ∧
      r.id = embA.chunk.chunk_id ∧
      r.content = embA.chunk.content ∧
      r.source_file = embA.chunk.source_file ∧
      r.source_type = embA.chunk.source_type ∧
      r.page_number = embA.chunk.page_number ∧
      r.chunk_index = embA.chunk.chunk_index :=
  ⟨rfl, by simp [embA, chunkA],
   insert_then_get_roundtrip (fun _ => none) dbReady [] embA rfl
     (by simp [embA, chunkA])⟩

/-- C9: malformed metadata is never fatal.  For a chunk whose metadata is
a string `s` the JSON parser rejects: the payload built by
`insert_embeddings` carries the empty mapping (when `s` is truthy, i.e.
non-empty; an empty `s` makes the source skip the key entirely and the
reader's default restores the empty mapping); a string-valued metadata
entry re-read by `get_chunk_by_id` is likewise replaced by the empty
mapping; and the insert-then-get round trip completes normally, returning
a present record with `{}` metadata. -/
theorem malformed_metadata_never_fatal (jloads : String → Option JVal)
    (db : QdrantVectorDB) (m : PointMap) (e : EmbeddedChunk) (s : String)
    (hmeta : e.chunk.metadata = .mstr s) (hparse : jloads s = none)
    (hdb : db.collection_exists = true) :
    (s ≠ "" → (buildPayload jloads e).metadata = some (.jobj [])) ∧
    (∀ p : Payload, p.metadata = some (.jstr s) → getMeta jloads p = .jobj []) ∧
    ∃ r : ChunkRecord,
      get_chunk_by_id jloads db
          (normalRetrieve (insert_embeddings jloads qdrantUpsert m [e]).2)
          e.chunk.chunk_id = some r ∧
      r.id = e.chunk.chunk_id ∧ r.metadata = .jobj [] := by
  have hmp : metaPayload jloads e.chunk.metadata
      = if s.isEmpty then none else some (.jobj []) := by
    rw [hmeta]
    simp [metaPayload, hparse]
  refine ⟨?_, ?_, ?_⟩
  · intro hs
    have hse : s.isEmpty = false := by
      rw [Bool.eq_false_iff]
      intro hx
      exact hs ((String.isEmpty_iff s).mp hx)
    simp [buildPayload, hmp, hse]
  · intro p hp
    simp [getMeta, hp, hparse]
  · refine ⟨_, get_after_insert jloads db m e hdb, rfl, ?_⟩
    show getMeta jloads (buildPayload jloads e) = .jobj []
    by_cases hs : s.isEmpty
    · simp [getMeta, buildPayload, hmp, hs]
    · simp [getMeta, buildPayload, hmp, hs]

/-- A chunk whose metadata is a string that is not valid JSON. -/
def chunkBadMeta : DocumentChunk :=
  ⟨"c3", "third chunk", "b.txt", "text", none, 2, none, none,
   .mstr "definitely not json"⟩

/-- The embedded form of `chunkBadMeta`. -/
def embBad : EmbeddedChunk := ⟨chunkBadMeta, [0, 1], "witness-model"⟩

/-- C9 witness: the malformed-metadata behaviour evaluated for a concrete
chunk whose metadata string parses to nothing. -/
theorem malformed_metadata_never_fatal_witness :
    embBad.chunk.metadata = .mstr "definitely not json" ∧
    (fun _ : String => (none : Option JVal)) "definitely not json" = none ∧
    dbReady.collection_exists = true ∧
    ((("definitely not json" : String) ≠ "" →
        (buildPayload (fun _ => none) embBad).metadata = some (.jobj [])) ∧
     (∀ p : Payload, p.metadata = some (.jstr "definitely not json") →
        getMeta (fun _ => none) p = .jobj []) ∧
     ∃ r : ChunkRecord,
       get_chunk_by_id (fun _ => none) dbReady
           (normalRetrieve
             (insert_embeddings (fun _ => none) qdrantUpsert [] [embBad]).2)
           embBad.chunk.chunk_id = some r ∧
       r.id = embBad.chunk.chunk_id ∧ r.metadata = .jobj []) :=
  ⟨rfl, rfl, rfl,
   malformed_metadata_never_fatal (fun _ => none) dbReady [] embBad
     "definitely not json" rfl rfl rfl⟩

/-- C4: score conversion.  Every returned result's score is exactly
`1 -` the engine's similarity score for the corresponding point (in rank
order), and provided the engine honours the cosine-collection contract —
similarities in `[-1, 1]`, ranked best (highest similarity) first — every
converted score lies in `[0, 2]` and the scores are monotonically
non-decreasing with rank. -/
theorem search_score_conversion
    (engine : List ℚ → Option Unit → Nat → List ScoredPoint)
    (query_vector : List ℚ) (limit : Nat) (filter_expr : Option String)
    (hrange : ∀ p ∈ engine query_vector none limit, -1 ≤ p.score ∧ p.score ≤ 1)
    (hsorted : (engine query_vector none limit).Pairwise
        (fun a b => b.score ≤ a.score)) :
    (search engine query_vector limit filter_expr).map (fun r => r.score)
        = (engine query_vector none limit).map (fun p => 1 - p.score) ∧
    (∀ r ∈ search engine query_vector limit filter_expr,
        0 ≤ r.score ∧ r.score ≤ 2) ∧
    (search engine query_vector limit filter_expr).Pairwise
        (fun a b => a.score ≤ b.score) := by
  refine ⟨?_, ?_, ?_⟩
  · show ((engine query_vector none limit).map formatSearchResult).map
        (fun r => r.score) = _
    rw [List.map_map]
    rfl
  · intro r hr
    have hr' : r ∈ (engine query_vector none limit).map formatSearchResult := hr
    simp only [List.mem_map] at hr'
    obtain ⟨p, hp, rfl⟩ := hr'
    have hb := hrange p hp
    show 0 ≤ 1 - p.score ∧ 1 - p.score ≤ 2
    constructor
    · linarith [hb.2]
    · linarith [hb.1]
  · show ((engine query_vector none limit).map formatSearchResult).Pairwise
        (fun a b => a.score ≤ b.score)
    rw [List.pairwise_map]
    refine hsorted.imp ?_
    intro a b hab
    show (1 : ℚ) - a.score ≤ 1 - b.score
    linarith

/-- A concrete engine response for the C4 witness: two points, best first,
similarities 1 and 1/2. -/
def engineW : List ℚ → Option Unit → Nat → List ScoredPoint :=
  fun _ _ _ =>
    [⟨string_id_to_int "c1", 1, buildPayload (fun _ => none) embA⟩,
     ⟨string_id_to_int "c3", 1 / 2, buildPayload (fun _ => none) embBad⟩]

/-- C4 witness: the conversion evaluated against the concrete engine
response, with a filter expression supplied (and ignored). -/
theorem search_score_conversion_witness :
    (∀ p ∈ engineW [1, 0] none 2, -1 ≤ p.score ∧ p.score ≤ 1) ∧
    (engineW [1, 0] none 2).Pairwise (fun a b => b.score ≤ a.score) ∧
    ((search engineW [1, 0] 2 (some "source_type == pdf")).map (fun r => r.score)
        = (engineW [1, 0] none 2).map (fun p => 1 - p.score) ∧
     (∀ r ∈ search engineW [1, 0] 2 (some "source_type == pdf"),
        0 ≤ r.score ∧ r.score ≤ 2) ∧
     (search engineW [1, 0] 2 (some "source_type == pdf")).Pairwise
        (fun a b => a.score ≤ b.score)) := by
  have hrange : ∀ p ∈ engineW [1, 0] none 2, -1 ≤ p.score ∧ p.score ≤ 1 := by
    intro p hp
    simp only [engineW, List.mem_cons, List.not_mem_nil, or_false] at hp
    rcases hp with rfl | rfl
    · constructor <;> norm_num
    · constructor <;> norm_num
  have hsorted : (engineW [1, 0] none 2).Pairwise (fun a b => b.score ≤ a.score) := by
    unfold engineW
    refine List.Pairwise.cons ?_ (List.Pairwise.cons ?_ List.Pairwise.nil)
    · intro b hb
      rw [List.mem_singleton.mp hb]
      norm_num
    · intro b hb
      exact absurd hb (List.not_mem_nil b)
  exact ⟨hrange, hsorted,
    search_score_conversion engineW [1, 0] 2 (some "source_type == pdf")
      hrange hsorted⟩
